import Mathlib

/-!
Verification of the exeray capture-engine FFI layer.

The Rust layer under `crates/exeray-ffi/src` is embedded shallowly:
`Category`/`Status` (the cxx shared enums), the boundary decoders
`category_from_u8` / `status_from_u8` (engine/events.rs), the `Engine`
wrapper methods (engine/events.rs, engine/control.rs, engine/mod.rs),
`EventIter` (event_iter.rs) and `ViewState` (view_state.rs).

The C++ core behind the `Handle` type is not part of the sources; its
observable behaviour (an append-only event graph, const accessors, a
session that is reset when a new one starts) is modelled from the spec,
with each such definition marked `Modelled from the spec:`.
-/

namespace Exeray

/-- Event category classification, the cxx shared enum.  The first six
variants (numeric values 0..5) appear in the bridge declaration in
lib.rs; the remaining ten are required by the decoder in
engine/events.rs and listed by the spec, in this order. -/
inductive Category where
  | fileSystem
  | registry
  | network
  | process
  | scheduler
  | input
  | image
  | thread
  | memory
  | script
  | amsi
  | dns
  | security
  | service
  | wmi
  | clr
  deriving DecidableEq, Repr

/-- Numeric discriminant of the shared enum (`Category::X.repr` on the
Rust side): declaration order starting at 0, matching the bridge
declaration for the first six and the spec's listing for the rest. -/
def Category.repr : Category → Nat
  | .fileSystem => 0
  | .registry => 1
  | .network => 2
  | .process => 3
  | .scheduler => 4
  | .input => 5
  | .image => 6
  | .thread => 7
  | .memory => 8
  | .script => 9
  | .amsi => 10
  | .dns => 11
  | .security => 12
  | .service => 13
  | .wmi => 14
  | .clr => 15

/-- Operation result status, the cxx shared enum.  Success..Error are in
the bridge declaration in lib.rs; Suspicious is required by the decoder
in engine/events.rs and listed by the spec. -/
inductive Status where
  | success
  | denied
  | pending
  | error
  | suspicious
  deriving DecidableEq, Repr

/-- Numeric discriminant of the shared `Status` enum. -/
def Status.repr : Status → Nat
  | .success => 0
  | .denied => 1
  | .pending => 2
  | .error => 3
  | .suspicious => 4

/-- engine/events.rs `category_from_u8`: convert a raw u8 from the
native boundary to a `Category`; unknown values fall back to
`FileSystem`.  The u8 is modelled as `Nat` (every u8 value is covered,
and the default arm also covers values a wider integer could carry). -/
def category_from_u8 (val : Nat) : Category :=
  match val with
  | 0 => Category.fileSystem
  | 1 => Category.registry
  | 2 => Category.network
  | 3 => Category.process
  | 4 => Category.scheduler
  | 5 => Category.input
  | 6 => Category.image
  | 7 => Category.thread
  | 8 => Category.memory
  | 9 => Category.script
  | 10 => Category.amsi
  | 11 => Category.dns
  | 12 => Category.security
  | 13 => Category.service
  | 14 => Category.wmi
  | 15 => Category.clr
  | _ => Category.fileSystem

/-- engine/events.rs `status_from_u8`: convert a raw u8 from the native
boundary to a `Status`; unknown values fall back to `Error`. -/
def status_from_u8 (val : Nat) : Status :=
  match val with
  | 0 => Status.success
  | 1 => Status.denied
  | 2 => Status.pending
  | 3 => Status.error
  | 4 => Status.suspicious
  | _ => Status.error

/-- Modelled from the spec: one committed record of the C++ EventGraph,
as observed through the six `event_get_*` accessors of the bridge.
Machine integers are modelled as `Nat` (id, parent, timestamp are u64;
category, status, operation are u8). -/
structure RawEvent where
  id : Nat
  parent_id : Nat
  timestamp : Nat
  category : Nat
  status : Nat
  operation : Nat
  deriving DecidableEq, Repr

/-- Modelled from the spec: the target process side of a capture
session, as observable through `target_pid` / `target_running`. -/
structure Session where
  pid : Nat
  running : Bool
  deriving DecidableEq, Repr

/-- Modelled from the spec: the observable state of the opaque C++
`Handle`.  `events` is the committed, append-only EventGraph (index =
append order); `generation`, `timestamp_ns`, `flags` are the u64
counters read by `poll`; `progress` is the f32 progress estimate,
modelled by its bit pattern since it is only ever copied, never
computed with; `session` is the at-most-one capture session. -/
structure Handle where
  events : List RawEvent
  generation : Nat
  timestamp_ns : Nat
  flags : Nat
  progress : Nat
  session : Option Session
  deriving DecidableEq, Repr

namespace ffi

/-- Bridge accessor `event_count`: committed events so far. -/
def event_count (h : Handle) : Nat := h.events.length

/-- Default record used to totalise the per-field accessors; the Rust
wrapper only calls them after the `index >= event_count` guard, so the
default is never observable through `get_event`. -/
def defaultRaw : RawEvent := ⟨0, 0, 0, 0, 0, 0⟩

/-- Bridge accessor `event_get_id`. -/
def event_get_id (h : Handle) (index : Nat) : Nat :=
  (h.events.getD index defaultRaw).id

/-- Bridge accessor `event_get_parent`. -/
def event_get_parent (h : Handle) (index : Nat) : Nat :=
  (h.events.getD index defaultRaw).parent_id

/-- Bridge accessor `event_get_timestamp`. -/
def event_get_timestamp (h : Handle) (index : Nat) : Nat :=
  (h.events.getD index defaultRaw).timestamp

/-- Bridge accessor `event_get_category` (raw u8 tag). -/
def event_get_category (h : Handle) (index : Nat) : Nat :=
  (h.events.getD index defaultRaw).category

/-- Bridge accessor `event_get_status` (raw u8 tag). -/
def event_get_status (h : Handle) (index : Nat) : Nat :=
  (h.events.getD index defaultRaw).status

/-- Bridge accessor `event_get_operation`. -/
def event_get_operation (h : Handle) (index : Nat) : Nat :=
  (h.events.getD index defaultRaw).operation

end ffi

/-- lib.rs `Event`: the value-copied event returned across the FFI
boundary, with decoded category and status. -/
structure Event where
  id : Nat
  parent_id : Nat
  timestamp : Nat
  category : Category
  status : Status
  operation : Nat
  deriving DecidableEq, Repr

/-- engine/mod.rs `Engine`: safe wrapper owning the C++ handle. -/
structure Engine where
  handle : Handle
  deriving DecidableEq, Repr

namespace Engine

/-- engine/mod.rs `Engine::new`: fresh engine.  Modelled from the spec:
construction creates an empty graph, zero generation, clear flags and
no session; `arena_mb` and `threads` configure capacity and worker
count and do not appear in the observable state modelled here. -/
def new (arena_mb : Nat) (threads : Nat) : Engine :=
  { handle := { events := [], generation := 0, timestamp_ns := 0,
                flags := 0, progress := 0, session := none } }

/-- engine/events.rs `Engine::event_count`. -/
def event_count (e : Engine) : Nat := ffi.event_count e.handle

/-- engine/events.rs `Engine::get_event`: `None` when the index is out
of bounds, otherwise the decoded event, each field read through its
bridge accessor and the category/status tags decoded by
`category_from_u8` / `status_from_u8`. -/
def get_event (e : Engine) (index : Nat) : Option Event :=
  if index ≥ e.event_count then none
  else some
    { id := ffi.event_get_id e.handle index
      parent_id := ffi.event_get_parent e.handle index
      timestamp := ffi.event_get_timestamp e.handle index
      category := category_from_u8 (ffi.event_get_category e.handle index)
      status := status_from_u8 (ffi.event_get_status e.handle index)
      operation := ffi.event_get_operation e.handle index }

end Engine

/-- event_iter.rs `EventIter`: holds the borrowed engine, the next
index, and the event count captured when the iterator was created. -/
structure EventIter where
  engine : Engine
  index : Nat
  count : Nat
  deriving Repr

/-- event_iter.rs `EventIter::next`, reading through the live engine
`e` (the borrow target): in Rust the iterator holds `&Engine`, and the
C++ consumer thread may have appended events since creation, so the
engine read at `next` time can extend the one captured at creation.
Returns the yielded item and the advanced iterator. -/
def EventIter.nextLive (e : Engine) (it : EventIter) : Option Event × EventIter :=
  if it.index ≥ it.count then (none, it)
  else (e.get_event it.index, { it with index := it.index + 1 })

/-- event_iter.rs `EventIter::next` when no append has happened since
the iterator was created: the borrow target is the captured engine. -/
def EventIter.next (it : EventIter) : Option Event × EventIter :=
  EventIter.nextLive it.engine it

/-- Drain the iterator against live engine `e`, collecting the yielded
events; `fuel` bounds the number of `next` calls (the Rust loop stops
at the first `None`). -/
def collectIter (e : Engine) (fuel : Nat) (it : EventIter) : List Event :=
  match fuel with
  | 0 => []
  | fuel' + 1 =>
    match EventIter.nextLive e it with
    | (none, _) => []
    | (some ev, it') => ev :: collectIter e fuel' it'

/-- engine/events.rs `Engine::iter_events`: fresh iterator from index 0
with the count captured at call time. -/
def Engine.iter_events (e : Engine) : EventIter :=
  { engine := e, index := 0, count := e.event_count }

/-- view_state.rs `ViewState`: value snapshot returned by `poll`. -/
structure ViewState where
  generation : Nat
  timestamp_ns : Nat
  flags : Nat
  progress : Nat
  deriving DecidableEq, Repr

namespace ViewState

/-- view_state.rs `ViewState::IDLE`. -/
def IDLE : Nat := 0

/-- view_state.rs `ViewState::PENDING`. -/
def PENDING : Nat := 1 <<< 0

/-- view_state.rs `ViewState::COMPLETE`. -/
def COMPLETE : Nat := 1 <<< 1

/-- view_state.rs `ViewState::READY`. -/
def READY : Nat := 1 <<< 2

/-- view_state.rs `ViewState::ERROR`. -/
def ERROR : Nat := 1 <<< 3

/-- view_state.rs `ViewState::is_complete`. -/
def is_complete (v : ViewState) : Bool := (v.flags &&& COMPLETE) != 0

/-- view_state.rs `ViewState::is_pending`. -/
def is_pending (v : ViewState) : Bool := (v.flags &&& PENDING) != 0

end ViewState

namespace Engine

/-- engine/mod.rs `Engine::poll`: build a `ViewState` from the four
const accessors of the handle.  Modelled from the spec: the accessors
are pure reads, so `poll` is a function of the engine state. -/
def poll (e : Engine) : ViewState :=
  { generation := e.handle.generation
    timestamp_ns := e.handle.timestamp_ns
    flags := e.handle.flags
    progress := e.handle.progress }

/-- `poll` viewed as a call on the engine: the returned snapshot paired
with the engine state after the call.  Modelled from the spec: `poll`
is non-mutating from the caller's perspective, so the state after the
call is the state before it. -/
def poll_call (e : Engine) : ViewState × Engine := (e.poll, e)

/-- `get_event` viewed as a call on the engine.  Modelled from the
spec: reads never mutate the engine. -/
def get_event_call (e : Engine) (index : Nat) : Option Event × Engine :=
  (e.get_event index, e)

/-- engine/control.rs `Engine::target_pid`: 0 when no session exists.
Modelled from the spec for the C++ side. -/
def target_pid (e : Engine) : Nat :=
  match e.handle.session with
  | none => 0
  | some s => s.pid

/-- engine/control.rs `Engine::target_running`: false when no session
exists.  Modelled from the spec for the C++ side. -/
def target_running (e : Engine) : Bool :=
  match e.handle.session with
  | none => false
  | some s => s.running

/-- engine/control.rs `Engine::freeze_target`.  Modelled from the spec:
suspends the target's threads when a session exists (not part of the
observable engine state modelled here) and is a no-op otherwise. -/
def freeze_target (e : Engine) : Engine := e

/-- engine/control.rs `Engine::unfreeze_target`.  Modelled from the
spec: resumes the target's threads when a session exists and is a
no-op otherwise. -/
def unfreeze_target (e : Engine) : Engine := e

/-- engine/control.rs `Engine::kill_target`.  Modelled from the spec:
terminates the target when a session exists (the target stops
running), and is a no-op when no session exists. -/
def kill_target (e : Engine) : Engine :=
  match e.handle.session with
  | none => e
  | some s =>
    { handle := { e.handle with session := some { s with running := false } } }

end Engine

/-- Modelled from the spec: the consumer thread decodes one raw trace
record and appends it to the EventGraph; each successful append bumps
the generation counter and, once at least one event is committed, the
READY flag is set.  Appends only happen while a capture session is
active. -/
def Engine.appendEvent (e : Engine) (r : RawEvent) : Engine :=
  match e.handle.session with
  | none => e
  | some _ =>
    { handle := { e.handle with
        events := e.handle.events ++ [r]
        generation := e.handle.generation + 1
        flags := e.handle.flags ||| ViewState.READY } }

/-- Modelled from the spec: an arena-exhaustion drop — the event is
dropped (the graph is unchanged) and the ERROR flag is set; capture
continues. -/
def Engine.dropExhausted (e : Engine) : Engine :=
  match e.handle.session with
  | none => e
  | some _ =>
    { handle := { e.handle with flags := e.handle.flags ||| ViewState.ERROR } }

/-- engine/monitoring.rs `Engine::start_monitoring`.  Modelled from the
spec: when no session is active and launch/attach succeeds (`ok`), the
Arena and EventGraph are reset for the new session, a session bound to
the launched target is installed, PENDING is set and the generation is
bumped; on failure all partial state is rolled back and the ERROR flag
records the failure.  Returns the engine and the boolean success
indicator. -/
def Engine.start_monitoring (e : Engine) (pid : Nat) (ok : Bool) : Engine × Bool :=
  match e.handle.session with
  | some _ => (e, false)
  | none =>
    if ok then
      ({ handle := { events := []
                     generation := e.handle.generation + 1
                     timestamp_ns := e.handle.timestamp_ns
                     flags := ViewState.PENDING
                     progress := e.handle.progress
                     session := some { pid := pid, running := true } } }, true)
    else
      ({ handle := { e.handle with flags := e.handle.flags ||| ViewState.ERROR } },
       false)

/-- engine/monitoring.rs `Engine::stop_monitoring`.  Modelled from the
spec: joins the consumer thread, terminates the target if still
running and releases the session; the most recent session is complete,
so COMPLETE is set and PENDING cleared, and the generation is bumped.
The graph is NOT reset here: reset happens only when a new session
begins. -/
def Engine.stop_monitoring (e : Engine) : Engine :=
  match e.handle.session with
  | none => e
  | some _ =>
    { handle := { e.handle with
        session := none
        generation := e.handle.generation + 1
        flags := (e.handle.flags ||| ViewState.COMPLETE) &&&
                 (15 - ViewState.PENDING) } }

/-- One observable operation on the engine over its lifetime, used to
state monotonicity claims.  Modelled from the spec: these are the
mutating entry points of the control surface plus the consumer
thread's append and drop. -/
inductive EngineOp where
  | append (r : RawEvent)
  | dropExhausted
  | startMonitoring (pid : Nat) (ok : Bool)
  | stopMonitoring
  | freezeTarget
  | unfreezeTarget
  | killTarget
  deriving DecidableEq, Repr

/-- Apply one operation to the engine state. -/
def Engine.applyOp (e : Engine) : EngineOp → Engine
  | .append r => e.appendEvent r
  | .dropExhausted => e.dropExhausted
  | .startMonitoring pid ok => (e.start_monitoring pid ok).1
  | .stopMonitoring => e.stop_monitoring
  | .freezeTarget => e.freeze_target
  | .unfreezeTarget => e.unfreeze_target
  | .killTarget => e.kill_target

/-- Run a sequence of operations (earliest first). -/
def Engine.run (e : Engine) (ops : List EngineOp) : Engine :=
  ops.foldl Engine.applyOp e

/-- `b`'s event graph extends `a`'s: every committed record of `a` is
still there, at the same index, and only appends follow. -/
def GraphExtends (a b : Engine) : Prop :=
  ∃ t, b.handle.events = a.handle.events ++ t

/-- An operation that does not begin a new capture session (and hence
never resets the graph). -/
def EngineOp.keepsGraph : EngineOp → Bool
  | .startMonitoring _ _ => false
  | _ => true

/-- The sixteen values of the `Category` enumeration, in declaration
order. -/
def categoryUniverse : List Category :=
  [.fileSystem, .registry, .network, .process, .scheduler, .input,
   .image, .thread, .memory, .script, .amsi, .dns, .security, .service,
   .wmi, .clr]

/-- The five values of the `Status` enumeration, in declaration order. -/
def statusUniverse : List Status :=
  [.success, .denied, .pending, .error, .suspicious]

/-- Concrete raw records and engine states used to witness theorems. -/
def rawA : RawEvent := ⟨1, 0, 100, 2, 0, 7⟩

/-- Second concrete raw record (appended after `rawA`). -/
def rawB : RawEvent := ⟨2, 1, 150, 3, 4, 9⟩

/-- A concrete engine holding one committed event and a live session. -/
def eEx : Engine :=
  ⟨{ events := [rawA], generation := 5, timestamp_ns := 1000, flags := 5,
     progress := 0, session := some ⟨42, true⟩ }⟩

/-- The same engine after the consumer thread appended `rawB`. -/
def eExt : Engine :=
  ⟨{ events := [rawA, rawB], generation := 6, timestamp_ns := 1000,
     flags := 5, progress := 0, session := some ⟨42, true⟩ }⟩

/-- A second engine with the same four polled fields as `eEx` but a
different graph and session. -/
def eOther : Engine :=
  ⟨{ events := [rawA, rawB, rawA], generation := 5, timestamp_ns := 1000,
     flags := 5, progress := 0, session := none }⟩

/-- Helper: the decoder's fallback arm for category tags at or above
16. -/
theorem category_from_u8_of_ge (v : Nat) (h : 16 ≤ v) :
    category_from_u8 v = Category.fileSystem := by
  obtain ⟨k, rfl⟩ : ∃ k, v = k + 16 := ⟨v - 16, by omega⟩
  rfl

/-- Helper: the decoder's fallback arm for status tags at or above 5. -/
theorem status_from_u8_of_ge (v : Nat) (h : 5 ≤ v) :
    status_from_u8 v = Status.error := by
  obtain ⟨k, rfl⟩ : ∃ k, v = k + 5 := ⟨v - 5, by omega⟩
  rfl

/-- Helper: an in-bounds `get_event` is the decoded record. -/
theorem get_event_of_lt (e : Engine) (i : Nat) (hi : i < e.event_count) :
    e.get_event i = some
      { id := ffi.event_get_id e.handle i
        parent_id := ffi.event_get_parent e.handle i
        timestamp := ffi.event_get_timestamp e.handle i
        category := category_from_u8 (ffi.event_get_category e.handle i)
        status := status_from_u8 (ffi.event_get_status e.handle i)
        operation := ffi.event_get_operation e.handle i } := by
  unfold Engine.get_event
  rw [if_neg (by omega)]

/-- Helper: extending the graph preserves the committed prefix, so
`get_event` at an already-committed index is unchanged. -/
theorem get_event_of_graphExtends (e e' : Engine) (i : Nat)
    (hi : i < e.event_count) (hext : GraphExtends e e') :
    e'.get_event i = e.get_event i := by
  obtain ⟨t, ht⟩ := hext
  have hcount : e'.event_count = e.event_count + t.length := by
    simp [Engine.event_count, ffi.event_count, ht]
  have hi' : i < e'.event_count := by omega
  rw [get_event_of_lt e i hi, get_event_of_lt e' i hi']
  have hgd : e'.handle.events.getD i ffi.defaultRaw =
      e.handle.events.getD i ffi.defaultRaw := by
    rw [ht]
    exact List.getD_append _ _ _ _ hi
  simp only [ffi.event_get_id, ffi.event_get_parent, ffi.event_get_timestamp,
    ffi.event_get_category, ffi.event_get_status, ffi.event_get_operation, hgd]

/-- C1: `get_event i` is absent exactly when `i >= event_count()`, and
for every in-range index it returns an event; out-of-range access is a
total, non-faulting absent result. -/
theorem get_event_bounds (e : Engine) (i : Nat) :
    (e.get_event i = none ↔ e.event_count ≤ i) ∧
    (i < e.event_count → ∃ ev, e.get_event i = some ev) := by
  constructor
  · constructor
    · intro h
      by_contra hlt
      rw [get_event_of_lt e i (by omega)] at h
      exact Option.noConfusion h
    · intro h
      unfold Engine.get_event
      rw [if_pos h]
  · intro h
    exact ⟨_, get_event_of_lt e i h⟩

/-- Witness for C1 at a concrete engine with one committed event:
index 1 is absent (also index 0 would be absent on an empty engine,
covered by the same bound), index 0 yields an event. -/
theorem get_event_bounds_witness :
    eEx.get_event 1 = none ∧ (∃ ev, eEx.get_event 0 = some ev) :=
  ⟨(get_event_bounds eEx 1).1.mpr (by decide),
   (get_event_bounds eEx 0).2 (by decide)⟩

/-- C3: the category enumeration has exactly the sixteen listed values
and the status enumeration exactly the five listed values, and every
event returned by `get_event` carries a category and a status from
these sets. -/
theorem event_enums_closed :
    categoryUniverse.length = 16 ∧ categoryUniverse.Nodup ∧
    (∀ c : Category, c ∈ categoryUniverse) ∧
    statusUniverse.length = 5 ∧ statusUniverse.Nodup ∧
    (∀ s : Status, s ∈ statusUniverse) ∧
    (∀ (e : Engine) (i : Nat) (ev : Event), e.get_event i = some ev →
      ev.category ∈ categoryUniverse ∧ ev.status ∈ statusUniverse) := by
  refine ⟨rfl, by decide, fun c => by cases c <;> decide, rfl, by decide,
    fun s => by cases s <;> decide, fun e i ev _ => ?_⟩
  exact ⟨by cases hc : ev.category <;> simp [hc, categoryUniverse],
    by cases hs : ev.status <;> simp [hs, statusUniverse]⟩

/-- Witness for C3: the hypothesis of the last conjunct holds at the
concrete engine `eEx`, whose event 0 decodes to a Network/Success
event. -/
theorem event_enums_closed_witness :
    Event.category ⟨1, 0, 100, .network, .success, 7⟩ ∈ categoryUniverse ∧
    Event.status ⟨1, 0, 100, .network, .success, 7⟩ ∈ statusUniverse :=
  event_enums_closed.2.2.2.2.2.2 eEx 0 ⟨1, 0, 100, .network, .success, 7⟩
    (by decide)

/-- C4: decoding at the boundary is total with an explicit fallback —
any unrecognized category tag decodes to FileSystem and any
unrecognized status tag to Error — and `get_event` builds its result
by routing the raw tags through these total decoders, so no
out-of-enumeration value and no fault can arise. -/
theorem boundary_decoding_total :
    (∀ v : Nat, 16 ≤ v → category_from_u8 v = Category.fileSystem) ∧
    (∀ v : Nat, 5 ≤ v → status_from_u8 v = Status.error) ∧
    (∀ (e : Engine) (i : Nat), i < e.event_count →
      e.get_event i = some
        { id := ffi.event_get_id e.handle i
          parent_id := ffi.event_get_parent e.handle i
          timestamp := ffi.event_get_timestamp e.handle i
          category := category_from_u8 (ffi.event_get_category e.handle i)
          status := status_from_u8 (ffi.event_get_status e.handle i)
          operation := ffi.event_get_operation e.handle i }) :=
  ⟨category_from_u8_of_ge, status_from_u8_of_ge, get_event_of_lt⟩

/-- Witness for C4 at concrete out-of-range tags 200 and 77 and the
concrete engine `eEx` at index 0. -/
theorem boundary_decoding_total_witness :
    category_from_u8 200 = Category.fileSystem ∧
    status_from_u8 77 = Status.error ∧
    eEx.get_event 0 = some
      { id := ffi.event_get_id eEx.handle 0
        parent_id := ffi.event_get_parent eEx.handle 0
        timestamp := ffi.event_get_timestamp eEx.handle 0
        category := category_from_u8 (ffi.event_get_category eEx.handle 0)
        status := status_from_u8 (ffi.event_get_status eEx.handle 0)
        operation := ffi.event_get_operation eEx.handle 0 } :=
  ⟨boundary_decoding_total.1 200 (by decide),
   boundary_decoding_total.2.1 77 (by decide),
   boundary_decoding_total.2.2 eEx 0 (by decide)⟩

/-- C10: on the valid range the decoders invert the enum encoding —
`category_from_u8 n` has numeric repr `n` for `n < 16` and
`status_from_u8 n` has repr `n` for `n < 5` — and out-of-range tags
silently map to FileSystem and Error respectively. -/
theorem from_u8_round_trip :
    (∀ n : Nat, n < 16 → (category_from_u8 n).repr = n) ∧
    (∀ n : Nat, 16 ≤ n → category_from_u8 n = Category.fileSystem) ∧
    (∀ n : Nat, n < 5 → (status_from_u8 n).repr = n) ∧
    (∀ n : Nat, 5 ≤ n → status_from_u8 n = Status.error) :=
  ⟨by decide, category_from_u8_of_ge, by decide, status_from_u8_of_ge⟩

/-- Witness for C10 at the concrete tags 3 (valid category), 200
(invalid category), 2 (valid status) and 9 (invalid status). -/
theorem from_u8_round_trip_witness :
    (category_from_u8 3).repr = 3 ∧
    category_from_u8 250 = Category.fileSystem ∧
    (status_from_u8 2).repr = 2 ∧
    status_from_u8 9 = Status.error :=
  ⟨from_u8_round_trip.1 3 (by decide), from_u8_round_trip.2.1 250 (by decide),
   from_u8_round_trip.2.2.1 2 (by decide),
   from_u8_round_trip.2.2.2 9 (by decide)⟩

/-- C5: the four flag constants are pairwise-disjoint nonzero single
bits, IDLE is 0, and `is_pending` / `is_complete` test exactly bit 0
and bit 1 of the flags word, independent of all other bits. -/
theorem view_state_flag_bits :
    ViewState.IDLE = 0 ∧
    ViewState.PENDING = 2 ^ 0 ∧ ViewState.COMPLETE = 2 ^ 1 ∧
    ViewState.READY = 2 ^ 2 ∧ ViewState.ERROR = 2 ^ 3 ∧
    ViewState.PENDING &&& ViewState.COMPLETE = 0 ∧
    ViewState.PENDING &&& ViewState.READY = 0 ∧
    ViewState.PENDING &&& ViewState.ERROR = 0 ∧
    ViewState.COMPLETE &&& ViewState.READY = 0 ∧
    ViewState.COMPLETE &&& ViewState.ERROR = 0 ∧
    ViewState.READY &&& ViewState.ERROR = 0 ∧
    (∀ v : ViewState, v.is_pending = v.flags.testBit 0) ∧
    (∀ v : ViewState, v.is_complete = v.flags.testBit 1) := by
  refine ⟨rfl, rfl, rfl, rfl, rfl, by decide, by decide, by decide, by decide,
    by decide, by decide, fun v => ?_, fun v => ?_⟩
  · have h := Nat.testBit_zero v.flags
    have hm := Nat.mod_two_eq_zero_or_one v.flags
    simp only [ViewState.is_pending, ViewState.PENDING]
    rcases hm with hm | hm <;>
      simp [h, Nat.and_one_is_mod, hm, Nat.shiftLeft_eq]
  · have h := Nat.and_two_pow v.flags 1
    simp only [ViewState.is_complete, ViewState.COMPLETE]
    have h2 : (1 : Nat) <<< 1 = 2 ^ 1 := by decide
    rw [h2, h]
    cases hb : v.flags.testBit 1 <;> simp [hb]

/-- C8: with no capture session, each of the five target-control
operations is a non-failing no-op that leaves the engine state
unchanged, `target_pid()` is 0 and `target_running()` is false. -/
theorem no_session_control_no_ops (e : Engine)
    (h : e.handle.session = none) :
    e.freeze_target = e ∧ e.unfreeze_target = e ∧ e.kill_target = e ∧
    e.target_pid = 0 ∧ e.target_running = false := by
  refine ⟨rfl, rfl, ?_, ?_, ?_⟩ <;>
    simp [Engine.kill_target, Engine.target_pid, Engine.target_running, h]

/-- Witness for C8 on a freshly constructed engine, which has no
session. -/
theorem no_session_control_no_ops_witness :
    (Engine.new 64 2).freeze_target = Engine.new 64 2 ∧
    (Engine.new 64 2).unfreeze_target = Engine.new 64 2 ∧
    (Engine.new 64 2).kill_target = Engine.new 64 2 ∧
    (Engine.new 64 2).target_pid = 0 ∧
    (Engine.new 64 2).target_running = false :=
  no_session_control_no_ops (Engine.new 64 2) rfl

/-- C9: `poll` leaves the engine unchanged and returns a snapshot that
copies exactly the four polled fields; the snapshot is determined by
those fields alone — two engines agreeing on them poll to the same
`ViewState` even with different event graphs and sessions, so the
snapshot carries no alias of the engine's mutable graph state. -/
theorem poll_pure_snapshot :
    (∀ e : Engine,
      (e.poll_call).2 = e ∧
      (e.poll_call).1.generation = e.handle.generation ∧
      (e.poll_call).1.timestamp_ns = e.handle.timestamp_ns ∧
      (e.poll_call).1.flags = e.handle.flags ∧
      (e.poll_call).1.progress = e.handle.progress) ∧
    (∀ e₁ e₂ : Engine,
      e₁.handle.generation = e₂.handle.generation →
      e₁.handle.timestamp_ns = e₂.handle.timestamp_ns →
      e₁.handle.flags = e₂.handle.flags →
      e₁.handle.progress = e₂.handle.progress →
      e₁.poll = e₂.poll) := by
  refine ⟨fun e => ⟨rfl, rfl, rfl, rfl, rfl⟩, fun e₁ e₂ hg ht hf hp => ?_⟩
  simp [Engine.poll, hg, ht, hf, hp]

/-- Witness for C9: `eEx` and `eOther` agree on the four polled fields
but differ in graph and session, and poll to the same snapshot. -/
theorem poll_pure_snapshot_witness :
    (eEx.poll_call).2 = eEx ∧ eEx.poll = eOther.poll :=
  ⟨(poll_pure_snapshot.1 eEx).1,
   poll_pure_snapshot.2 eEx eOther rfl rfl rfl rfl⟩

/-- C7: two consecutive `get_event(i)` calls at an in-range index, with
no intervening mutation, return present events agreeing in all six
fields, the first call leaving the engine unchanged; moreover any pure
graph extension (appends by the consumer thread) leaves the committed
event at `i` unchanged. -/
theorem get_event_deterministic (e e' : Engine) (i : Nat)
    (hi : i < e.event_count) (hext : GraphExtends e e') :
    (∃ ev₁ ev₂,
      (e.get_event_call i).1 = some ev₁ ∧
      (e.get_event_call i).2 = e ∧
      (((e.get_event_call i).2).get_event_call i).1 = some ev₂ ∧
      ev₁.id = ev₂.id ∧ ev₁.parent_id = ev₂.parent_id ∧
      ev₁.timestamp = ev₂.timestamp ∧ ev₁.category = ev₂.category ∧
      ev₁.status = ev₂.status ∧ ev₁.operation = ev₂.operation) ∧
    e'.get_event i = e.get_event i := by
  refine ⟨?_, get_event_of_graphExtends e e' i hi hext⟩
  have hev := get_event_of_lt e i hi
  exact ⟨_, _, hev, rfl, hev, rfl, rfl, rfl, rfl, rfl, rfl⟩

/-- Witness for C7 at the concrete engine `eEx`, index 0, with the
concrete extension `eExt` obtained by appending `rawB`. -/
theorem get_event_deterministic_witness :
    (∃ ev₁ ev₂,
      (eEx.get_event_call 0).1 = some ev₁ ∧
      (eEx.get_event_call 0).2 = eEx ∧
      (((eEx.get_event_call 0).2).get_event_call 0).1 = some ev₂ ∧
      ev₁.id = ev₂.id ∧ ev₁.parent_id = ev₂.parent_id ∧
      ev₁.timestamp = ev₂.timestamp ∧ ev₁.category = ev₂.category ∧
      ev₁.status = ev₂.status ∧ ev₁.operation = ev₂.operation) ∧
    eExt.get_event 0 = eEx.get_event 0 :=
  get_event_deterministic eEx eExt 0 (by decide) ⟨[rawB], rfl⟩

/-- Helper: one drain step of the iterator at an in-range index yields
the event at that index and advances the index. -/
theorem nextLive_of_lt (E g : Engine) (idx n : Nat) (h : idx < n) :
    EventIter.nextLive E { engine := g, index := idx, count := n } =
      (E.get_event idx, { engine := g, index := idx + 1, count := n }) := by
  have hc : ¬ (idx ≥ n) := by omega
  simp [EventIter.nextLive, hc]

theorem nextLive_of_ge (E g : Engine) (idx n : Nat) (h : idx ≥ n) :
    EventIter.nextLive E { engine := g, index := idx, count := n } =
      (none, { engine := g, index := idx, count := n }) := by
  simp [EventIter.nextLive, h]

theorem collectIter_step (E g : Engine) (fuel idx n : Nat) (ev : Event)
    (hev : E.get_event idx = some ev) (h : idx < n) :
    collectIter E (fuel + 1) { engine := g, index := idx, count := n } =
      ev :: collectIter E fuel { engine := g, index := idx + 1, count := n } := by
  simp only [collectIter, nextLive_of_lt E g idx n h, hev]

/-- Helper: draining the iterator with enough fuel yields one item per
remaining in-range index. -/
theorem collectIter_length (E g : Engine) (n : Nat)
    (hn : n ≤ E.event_count) :
    ∀ (fuel idx : Nat), n - idx ≤ fuel →
      (collectIter E fuel { engine := g, index := idx, count := n }).length =
        n - idx := by
  intro fuel
  induction fuel with
  | zero =>
    intro idx h
    have h0 : n - idx = 0 := by omega
    simp [collectIter, h0]
  | succ fuel ih =>
    intro idx h
    by_cases hidx : idx < n
    · have hev := get_event_of_lt E idx (by omega)
      rw [collectIter_step E g fuel idx n _ hev hidx]
      have := ih (idx + 1) (by omega)
      simp only [List.length_cons, this]
      omega
    · have h0 : n - idx = 0 := by omega
      simp only [collectIter, nextLive_of_ge E g idx n (by omega), h0,
        List.length_nil]

/-- Helper: the i-th item drained from the iterator is the event the
engine holds at index `idx + i`. -/
theorem collectIter_get? (E g : Engine) (n : Nat)
    (hn : n ≤ E.event_count) :
    ∀ (fuel idx i : Nat), n - idx ≤ fuel → idx + i < n →
      (collectIter E fuel { engine := g, index := idx, count := n }).get? i =
        E.get_event (idx + i) := by
  intro fuel
  induction fuel with
  | zero => intro idx i hfuel hi; omega
  | succ fuel ih =>
    intro idx i hfuel hi
    have hidx : idx < n := by omega
    have hev := get_event_of_lt E idx (by omega)
    rw [collectIter_step E g fuel idx n _ hev hidx]
    cases i with
    | zero => simpa using hev.symm
    | succ i =>
      have := ih (idx + 1) i (by omega) (by omega)
      simpa [Nat.add_assoc, Nat.add_comm 1 i] using this

/-- C2: `iter_events()` starts at index 0 with the count captured at
call time; drained (even against an engine the consumer thread has
extended since), it yields exactly `event_count()`-at-call-time items,
the i-th being `get_event(i)` as of call time, and never an item for
an index at or beyond that count. -/
theorem iter_events_spec (e e' : Engine) (fuel : Nat)
    (hext : GraphExtends e e') (hfuel : e.event_count ≤ fuel) :
    e.iter_events = { engine := e, index := 0, count := e.event_count } ∧
    (collectIter e' fuel e.iter_events).length = e.event_count ∧
    (∀ i, i < e.event_count →
      (collectIter e' fuel e.iter_events).get? i = e.get_event i) := by
  have hn : e.event_count ≤ e'.event_count := by
    obtain ⟨t, ht⟩ := hext
    simp [Engine.event_count, ffi.event_count, ht]
  refine ⟨rfl, ?_, ?_⟩
  · have h := collectIter_length e' e e.event_count hn fuel 0 (by omega)
    simpa [Engine.iter_events] using h
  · intro i hi
    have h := collectIter_get? e' e e.event_count hn fuel 0 i (by omega)
      (by omega)
    have hsame := get_event_of_graphExtends e e' i hi hext
    simp only [Engine.iter_events]
    simpa [hsame] using h

/-- Witness for C2 at the concrete engine `eEx` (one committed event),
drained against the concrete extension `eExt` with fuel 5. -/
theorem iter_events_spec_witness :
    eEx.iter_events = { engine := eEx, index := 0, count := eEx.event_count } ∧
    (collectIter eExt 5 eEx.iter_events).length = eEx.event_count ∧
    (∀ i, i < eEx.event_count →
      (collectIter eExt 5 eEx.iter_events).get? i = eEx.get_event i) :=
  iter_events_spec eEx eExt 5 ⟨[rawB], rfl⟩ (by decide)

/-- Helper: an operation that does not start a new session never
shrinks the committed event count. -/
theorem applyOp_count_mono (e : Engine) (op : EngineOp)
    (hop : op.keepsGraph = true) :
    e.event_count ≤ (e.applyOp op).event_count := by
  cases op with
  | append r =>
    cases hs : e.handle.session with
    | none => simp [Engine.applyOp, Engine.appendEvent, hs]
    | some s =>
      simp [Engine.applyOp, Engine.appendEvent, hs, Engine.event_count,
        ffi.event_count]
  | dropExhausted =>
    cases hs : e.handle.session <;>
      simp [Engine.applyOp, Engine.dropExhausted, hs, Engine.event_count,
        ffi.event_count]
  | startMonitoring pid ok => simp [EngineOp.keepsGraph] at hop
  | stopMonitoring =>
    cases hs : e.handle.session <;>
      simp [Engine.applyOp, Engine.stop_monitoring, hs, Engine.event_count,
        ffi.event_count]
  | freezeTarget => exact Nat.le_refl _
  | unfreezeTarget => exact Nat.le_refl _
  | killTarget =>
    cases hs : e.handle.session <;>
      simp [Engine.applyOp, Engine.kill_target, hs, Engine.event_count,
        ffi.event_count]

/-- C6 counterexample: over the engine's lifetime the count is not
monotone — a first session commits one event, then stopping and
starting a second session resets the graph, dropping the observed
count from 1 back to 0. -/
theorem event_count_not_lifetime_monotone :
    ((Engine.new 64 2).run
      [.startMonitoring 42 true, .append rawA]).event_count = 1 ∧
    (((Engine.new 64 2).run
      [.startMonitoring 42 true, .append rawA]).run
      [.stopMonitoring, .startMonitoring 43 true]).event_count = 0 := by
  decide

/-- C6 amended: `event_count()` is 0 on a freshly constructed engine,
and is monotonically non-decreasing across any sequence of operations
that does not begin a new capture session (a new `start_monitoring`
resets the graph for the new session, so the count may drop to 0 at a
session boundary). -/
theorem event_count_session_monotone (arena threads : Nat) (e : Engine)
    (ops : List EngineOp) (hops : ∀ op ∈ ops, op.keepsGraph = true) :
    (Engine.new arena threads).event_count = 0 ∧
    e.event_count ≤ (e.run ops).event_count := by
  refine ⟨rfl, ?_⟩
  induction ops generalizing e with
  | nil => simp [Engine.run]
  | cons op ops ih =>
    have h1 := applyOp_count_mono e op (hops op (List.mem_cons_self op ops))
    have h2 := ih (e.applyOp op)
      (fun o ho => hops o (List.mem_cons_of_mem op ho))
    simp only [Engine.run, List.foldl_cons] at h2 ⊢
    omega

/-- Witness for C6's amended claim: concrete append and stop steps on
`eEx` never shrink the count, and a fresh engine counts 0. -/
theorem event_count_session_monotone_witness :
    (Engine.new 64 2).event_count = 0 ∧
    eEx.event_count ≤
      (eEx.run [.append rawB, .stopMonitoring]).event_count :=
  event_count_session_monotone 64 2 eEx [.append rawB, .stopMonitoring]
    (by decide)

end Exeray
